import Mathlib

/-!
Verification of the `video_change` core (FFmpeg command builder, progress
monitor, task manager) against its design specification.

The Python sources under `src/core/` are shallowly embedded: pure helpers
become Lean functions, the subprocess boundary becomes explicit inputs
(the child's diagnostic lines and exit code), Python `float` arithmetic is
modelled as exact rationals, and Python exceptions become `Except`.
Python truthiness is modelled field by field where the source relies on it
(empty string, zero, `None` are falsy).  Numeric-to-string rendering
(`str`/f-strings) is modelled by canonical decimal renderers; an integer
renders bare, a non-integral rational with terminating decimal expansion
renders as its exact decimal, matching CPython on the values the
application produces.
-/

/-! Basic character and numeral helpers shared by the embedding. -/

def digitChar (n : Nat) : Char := Char.ofNat (48 + n)

/-- Decimal digits of a natural number, most significant first.  Fuel-based
so that the kernel can evaluate it (`natDigitsAux (n+1) n` always has
enough fuel since the value shrinks by a factor of ten each step). -/
def natDigitsAux : Nat → Nat → List Char
  | 0, _ => []
  | fuel + 1, n => if n < 10 then [digitChar n] else natDigitsAux fuel (n / 10) ++ [digitChar (n % 10)]

def natDigits (n : Nat) : List Char := natDigitsAux (n + 1) n

/-- Python `str` of a non-negative integer. -/
def natStr (n : Nat) : String := String.mk (natDigits n)

/-- Python `str` of an integer. -/
def intStr (i : Int) : String := if i < 0 then "-" ++ natStr i.natAbs else natStr i.natAbs

/-- Number of times `p` divides `n` (fuel-based for kernel evaluation). -/
def adicCountAux : Nat → Nat → Nat → Nat
  | 0, _, _ => 0
  | fuel + 1, p, n => if 2 ≤ p ∧ n ≠ 0 ∧ n % p = 0 then adicCountAux fuel p (n / p) + 1 else 0

def adicCount (p n : Nat) : Nat := adicCountAux n p n

/-- Rendering of an ideal (exact-rational) Python float: sign, integer part,
decimal point, and the exact terminating decimal expansion when one exists;
rationals without a terminating expansion (never produced by the sources'
float arithmetic) fall back to a fraction rendering. -/
def pyFloatStr (q : ℚ) : String :=
  let sgn := if q.num < 0 then "-" else ""
  let k := max (adicCount 2 q.den) (adicCount 5 q.den)
  if 10 ^ k % q.den = 0 then
    let m := q.num.natAbs * (10 ^ k / q.den)
    if k = 0 then sgn ++ natStr m ++ ".0"
    else
      let ds := natDigits m
      let padded := List.replicate (k + 1 - ds.length) '0' ++ ds
      sgn ++ String.mk (padded.take (padded.length - k)) ++ "." ++ String.mk (padded.drop (padded.length - k))
  else sgn ++ natStr q.num.natAbs ++ "/" ++ natStr q.den

/-- Python `str` of a number that is an int when integral (as the GUI
supplies ints for integral fields) and a float otherwise. -/
def numStr (q : ℚ) : String := if q.den = 1 then intStr q.num else pyFloatStr q

/-- Python `str(float(i))` for an integer `i` (used by the rotation filter). -/
def floatStrOfInt (i : Int) : String := intStr i ++ ".0"

/-- Characters that can occur in any rendered numeral. -/
def numLikeChar (c : Char) : Bool := c.isDigit || c == '-' || c == '.' || c == '/'

/-- Python whitespace, as matched by `\s` and `str.strip`/`str.rstrip`
(ASCII range; the diagnostic stream is ASCII). -/
def isPySpace (c : Char) : Bool :=
  c == ' ' || c == '\t' || c == '\n' || c == '\r' || c == '\x0b' || c == '\x0c'

/-- Python `str.rstrip()`. -/
def rstrip (s : String) : String := String.mk (s.data.reverse.dropWhile isPySpace).reverse

/-- ASCII `str.lower()`. -/
def pyLower (s : String) : String := String.mk (s.data.map Char.toLower)

/-- Maximal prefix satisfying `p`, with the remainder (structural, unlike
`List.span`, so the kernel can evaluate it). -/
def spanP (p : Char → Bool) : List Char → List Char × List Char
  | [] => ([], [])
  | c :: rest =>
    if p c then
      let res := spanP p rest
      (c :: res.1, res.2)
    else ([], c :: rest)

/-- Python `str.split(sep)` for a one-character separator. -/
def splitOnChar (sep : Char) : List Char → List (List Char)
  | [] => [[]]
  | c :: rest =>
    if c = sep then [] :: splitOnChar sep rest
    else
      match splitOnChar sep rest with
      | h :: t => (c :: h) :: t
      | [] => [[c]]

/-- Value of a list of decimal digit characters (`int` on a digit string). -/
def natFromDigits (l : List Char) : Nat := l.foldl (fun a c => a * 10 + (c.toNat - 48)) 0

/-- Python `int(str)`: optional surrounding whitespace, optional sign,
then a non-empty run of decimal digits. -/
def pyInt? (l : List Char) : Option Int :=
  let t := ((l.dropWhile isPySpace).reverse.dropWhile isPySpace).reverse
  match t with
  | '-' :: ds => if ds ≠ [] ∧ ds.all Char.isDigit then some (-(natFromDigits ds : Int)) else none
  | '+' :: ds => if ds ≠ [] ∧ ds.all Char.isDigit then some (natFromDigits ds : Int) else none
  | ds => if ds ≠ [] ∧ ds.all Char.isDigit then some (natFromDigits ds : Int) else none

/-- Python `"".join`. -/
def strJoin (l : List String) : String := l.foldl (· ++ ·) ""

/-- Python `sep.join`. -/
def joinSep (sep : String) : List String → String
  | [] => ""
  | [s] => s
  | s :: rest => s ++ sep ++ joinSep sep rest

/-!
Embedding of `src/core/progress_monitor.py`.

The three module-level regular expressions are embedded as leftmost-match
searches over the character list of a line:
`TIME_RE = time=(\d+):(\d+):(\d+\.?\d*)`, `FRAME_RE = frame=\s*(\d+)`,
`SPEED_RE = speed=\s*([\d\.]+)x`.  Each greedy `\d+`-style group is a
maximal run, which coincides with the backtracking semantics here because
every group is followed by a character outside its class.  The third time
group `\d+\.?\d*` is carried split at its optional dot.
-/

/-- Captured groups of one `TIME_RE` match: hours, minutes, and the
seconds group split into its integer digits and post-dot digits
(`ssFrac = []` both for `"05"` and for `"05."`). -/
structure TimeMatch where
  hh : List Char
  mm : List Char
  ssInt : List Char
  ssFrac : List Char
deriving DecidableEq, Repr

/-- Try to match `TIME_RE` at the head of the list. -/
def matchTimeAt (l : List Char) : Option TimeMatch :=
  match l with
  | 't' :: 'i' :: 'm' :: 'e' :: '=' :: r0 =>
    let g1 := spanP Char.isDigit r0
    if g1.1 = [] then none else
    match g1.2 with
    | ':' :: r1 =>
      let g2 := spanP Char.isDigit r1
      if g2.1 = [] then none else
      match g2.2 with
      | ':' :: r2 =>
        let g3 := spanP Char.isDigit r2
        if g3.1 = [] then none else
        match g3.2 with
        | '.' :: r3 => some ⟨g1.1, g2.1, g3.1, (spanP Char.isDigit r3).1⟩
        | _ => some ⟨g1.1, g2.1, g3.1, []⟩
      | _ => none
    | _ => none
  | _ => none

/-- Leftmost `TIME_RE.search`. -/
def searchTime : List Char → Option TimeMatch
  | [] => none
  | c :: rest =>
    match matchTimeAt (c :: rest) with
    | some g => some g
    | none => searchTime rest

/-- Try to match `FRAME_RE` at the head of the list; the group is the
digit run. -/
def matchFrameAt (l : List Char) : Option (List Char) :=
  match l with
  | 'f' :: 'r' :: 'a' :: 'm' :: 'e' :: '=' :: r0 =>
    let ds := spanP Char.isDigit (r0.dropWhile isPySpace)
    if ds.1 = [] then none else some ds.1
  | _ => none

/-- Leftmost `FRAME_RE.search`. -/
def searchFrame : List Char → Option (List Char)
  | [] => none
  | c :: rest =>
    match matchFrameAt (c :: rest) with
    | some g => some g
    | none => searchFrame rest

/-- Try to match `SPEED_RE` at the head of the list; the group is the
maximal `[\d.]` run, which must be followed by `x`. -/
def matchSpeedAt (l : List Char) : Option (List Char) :=
  match l with
  | 's' :: 'p' :: 'e' :: 'e' :: 'd' :: '=' :: r0 =>
    let run := spanP (fun c => c.isDigit || c == '.') (r0.dropWhile isPySpace)
    if run.1 = [] then none else
    match run.2 with
    | 'x' :: _ => some run.1
    | _ => none
  | _ => none

/-- Leftmost `SPEED_RE.search`. -/
def searchSpeed : List Char → Option (List Char)
  | [] => none
  | c :: rest =>
    match matchSpeedAt (c :: rest) with
    | some g => some g
    | none => searchSpeed rest

/-- Split a `[\d.]+` group as Python `float` does: at most one dot and at
least one digit, otherwise `ValueError` (`none`).  Returns the integer
digits and the fractional digits. -/
def floatParts? (l : List Char) : Option (List Char × List Char) :=
  let g := spanP Char.isDigit l
  match g.2 with
  | [] => if g.1 = [] then none else some (g.1, [])
  | '.' :: fp =>
    if fp.all Char.isDigit ∧ ¬(g.1 = [] ∧ fp = []) then some (g.1, fp) else none
  | _ => none

/-- Value of a split decimal (integer digits plus fractional digits). -/
def decVal (ip fp : List Char) : ℚ :=
  (natFromDigits ip : ℚ) + (natFromDigits fp : ℚ) / 10 ^ fp.length

/-- `_parse_timecode`: `int(h)*3600 + int(m)*60 + float(s)` as an exact
rational. -/
def parseTimecode (g : TimeMatch) : ℚ :=
  (natFromDigits g.hh : ℚ) * 3600 + (natFromDigits g.mm : ℚ) * 60 + decVal g.ssInt g.ssFrac

/-- `progress_monitor.ProgressUpdate`. -/
structure ProgressUpdate where
  progress : Option ℚ
  current_time : Option ℚ
  current_frame : Option Nat
  speed : Option ℚ
  eta : Option ℚ
  raw : String
  done : Bool := false
  return_code : Option Int := none
deriving DecidableEq, Repr

/-- `current_time or 0` (Python truthiness on an optional float). -/
def pyOr0 (o : Option ℚ) : ℚ :=
  match o with
  | some t => if t = 0 then 0 else t
  | none => 0

/-- `_create_progress_update(line, total_duration, start_time)`.  The call
`time.time() - start_time` is the oracle input `elapsed`. -/
def createProgressUpdate (line : String) (totalDuration : Option ℚ) (elapsed : ℚ) : ProgressUpdate :=
  let timeG := searchTime line.data
  let current_time : Option ℚ := timeG.map parseTimecode
  let progress_value : Option ℚ :=
    match current_time, totalDuration with
    | some t, some d => if 0 < d then some (min (t / d) 1) else none
    | _, _ => none
  let frame_val : Option Nat := (searchFrame line.data).map natFromDigits
  let speed_val : Option ℚ :=
    match searchSpeed line.data with
    | some g => (floatParts? g).map (fun p => decVal p.1 p.2)
    | none => none
  let eta : Option ℚ :=
    match progress_value with
    | none => none
    | some pv =>
      match speed_val, totalDuration with
      | some sv, some d =>
        if 0 < sv ∧ d ≠ 0 then some (max ((d - pyOr0 current_time) / sv) 0)
        else if 0 < pv then some (max (elapsed / pv * (1 - pv)) 0) else none
      | _, _ => if 0 < pv then some (max (elapsed / pv * (1 - pv)) 0) else none
  { progress := progress_value
    current_time := current_time
    current_frame := frame_val
    speed := speed_val
    eta := eta
    raw := line }

/-- `types.FFmpegError` (the spec's `ExternalToolError`): message plus the
command and captured output streams. -/
structure FFmpegError where
  message : String
  command : List String
  stdout : String
  stderr : String
deriving DecidableEq, Repr

/-- `types.CommandResult`. -/
structure CommandResult where
  returncode : Int
  stdout : String
  stderr : String
  command : List String
deriving DecidableEq, Repr

/-- The per-line updates produced by the stderr loop of
`run_with_progress`; each line comes with the elapsed wall-clock oracle at
the moment it is parsed. -/
def lineUpdates (lines : List (String × ℚ)) (total : Option ℚ) : List ProgressUpdate :=
  lines.map fun le => createProgressUpdate (rstrip le.1) total le.2

/-- The running `last_progress` accumulator of `run_with_progress`. -/
def lastProgressOf (us : List ProgressUpdate) : ℚ :=
  us.foldl (fun acc u =>
    match u.progress with
    | some p => p
    | none => acc) 0

/-- The terminal update built after `process.wait()`. -/
def finalUpdate (total : Option ℚ) (lastProgress : ℚ) (rc : Int) : ProgressUpdate :=
  { progress := if rc = 0 then some 1 else some lastProgress
    current_time := if rc = 0 then total else none
    current_frame := none
    speed := none
    eta := if rc = 0 then some 0 else none
    raw := "FFmpeg exited with code " ++ intStr rc
    done := true
    return_code := some rc }

/-- `run_with_progress(command, total_duration, callback, check)`: the
child process is an input (its stderr lines with elapsed-time oracles, and
its exit code).  Returns the sequence of updates delivered to the callback
in order, and either the `CommandResult` or the raised `FFmpegError`. -/
def runWithProgress (command : List String) (total : Option ℚ) (check : Bool)
    (lines : List (String × ℚ)) (rc : Int) :
    List ProgressUpdate × Except FFmpegError CommandResult :=
  let ups := lineUpdates lines total
  let fin := finalUpdate total (lastProgressOf ups) rc
  (ups ++ [fin],
   if check ∧ rc ≠ 0 then
     Except.error ⟨"FFmpeg exited with code " ++ intStr rc, command, "", ""⟩
   else Except.ok ⟨rc, "", "", command⟩)

/-!
Embedding of `src/core/ffmpeg_wrapper.py`.

The dynamic parameter mappings are embedded as records of optional fields;
an absent Python key is `none`.  Where the source tests a value's
truthiness (`if codec:`, `elif bitrate:`, `if w and h:`, `or 48000`),
the embedding tests non-emptiness / non-zeroness of the present value.
A `crop`/`color`/`loudnorm`/`denoise` sub-mapping that is absent or empty
is `none`.  `ValueError`/`TypeError` raised at build time (the spec's
`InvalidArgument`) become the `BuildError` sum.
-/

structure CropParams where
  w : Option Int := none
  h : Option Int := none
  x : Option Int := none
  y : Option Int := none
deriving DecidableEq, Repr

structure ColorParams where
  brightness : Option ℚ := none
  contrast : Option ℚ := none
  saturation : Option ℚ := none
deriving DecidableEq, Repr

structure VideoParams where
  codec : Option String := none
  crf : Option Int := none
  bitrate : Option String := none
  fps : Option ℚ := none
  resolution : Option String := none
  preset : Option String := none
  tune : Option String := none
  crop : Option CropParams := none
  rotate : Option Int := none
  color : Option ColorParams := none
deriving DecidableEq, Repr

structure LoudnormParams where
  target : Option ℚ := none
  true_peak : Option ℚ := none
deriving DecidableEq, Repr

structure DenoiseParams where
  strength : Option ℚ := none
deriving DecidableEq, Repr

structure AudioParams where
  codec : Option String := none
  bitrate : Option String := none
  sample_rate : Option Nat := none
  channels : Option Nat := none
  loudnorm : Option LoudnormParams := none
  denoise : Option DenoiseParams := none
deriving DecidableEq, Repr

/-- The top-level parameter mapping of `build_command`/`build_merge_command`
(the `start`/`end` keys are read only by the single-input build). -/
structure Params where
  overwrite : Bool := true
  start : Option ℚ := none
  stop : Option ℚ := none
  video : VideoParams := {}
  audio : AudioParams := {}
  extra_args : List String := []
deriving DecidableEq, Repr

/-- The `crop=` clause of `_build_video_filters` (emitted when the crop
mapping has truthy `w` and `h`; `x`/`y` default to 0). -/
def cropClause (c : Option CropParams) : Option String :=
  match c with
  | none => none
  | some cp =>
    match cp.w, cp.h with
    | some w, some h =>
      if w ≠ 0 ∧ h ≠ 0 then
        some ("crop=" ++ intStr w ++ ":" ++ intStr h ++ ":" ++ intStr (cp.x.getD 0) ++ ":" ++ intStr (cp.y.getD 0))
      else none
    | _, _ => none

/-- The rotation clause of `_build_video_filters`: the canonical transpose
mapping for 90/180/270, the radian-converted `rotate=` filter for any
other truthy angle that is not a multiple of 360. -/
def rotateClause (r : Option Int) : Option String :=
  match r with
  | none => none
  | some a =>
    if a = 90 then some "transpose=1"
    else if a = 180 then some "transpose=2,transpose=2"
    else if a = 270 then some "transpose=2"
    else if a ≠ 0 ∧ a % 360 ≠ 0 then some ("rotate=" ++ floatStrOfInt a ++ "*PI/180")
    else none

/-- The `eq=` clause of `_build_video_filters` (emitted whenever the color
mapping is non-empty; brightness scaled by 1/100, contrast and saturation
scaled by 1/100 then offset by +1). -/
def eqClause (c : Option ColorParams) : Option String :=
  match c with
  | none => none
  | some cp =>
    if cp.brightness.isSome ∨ cp.contrast.isSome ∨ cp.saturation.isSome then
      some ("eq=brightness=" ++ pyFloatStr (cp.brightness.getD 0 / 100)
        ++ ":contrast=" ++ pyFloatStr (cp.contrast.getD 0 / 100 + 1)
        ++ ":saturation=" ++ pyFloatStr (cp.saturation.getD 0 / 100 + 1))
    else none

/-- The ordered clause list built by `_build_video_filters`. -/
def vfClauses (v : VideoParams) : List String :=
  (cropClause v.crop).toList ++ (rotateClause v.rotate).toList ++ (eqClause v.color).toList

/-- `_build_video_filters`: the comma-joined filter expression. -/
def buildVideoFilters (v : VideoParams) : String := joinSep "," (vfClauses v)

/-- The `loudnorm` clause of `_build_audio_filters` (defaults: target −16,
true peak −1, LRA fixed at 11). -/
def loudnormClause (l : Option LoudnormParams) : Option String :=
  match l with
  | none => none
  | some lp =>
    some ("loudnorm=I=" ++ numStr (lp.target.getD (-16)) ++ ":TP=" ++ numStr (lp.true_peak.getD (-1)) ++ ":LRA=11")

/-- The denoise clause of `_build_audio_filters` (default strength 12). -/
def denoiseClause (d : Option DenoiseParams) : Option String :=
  match d with
  | none => none
  | some dp => some ("afftdn=nr=" ++ numStr (dp.strength.getD 12))

def afClauses (a : AudioParams) : List String :=
  (loudnormClause a.loudnorm).toList ++ (denoiseClause a.denoise).toList

/-- `_build_audio_filters`. -/
def buildAudioFilters (a : AudioParams) : String := joinSep "," (afClauses a)

/-- A `[flag, value]` pair emitted only when the optional string value is
truthy (present and non-empty). -/
def optStrFlag (flag : String) (v : Option String) : List String :=
  match v with
  | some s => if s = "" then [] else [flag, s]
  | none => []

/-- `_apply_video_params`: the flag group contributed by the video block.
`crf` wins over `bitrate` (`if crf is not None: ... elif bitrate: ...`);
the constructed `-vf` expression is emitted only when `allow_filters` and
the expression is non-empty. -/
def applyVideoParams (v : VideoParams) (allowFilters : Bool) : List String :=
  optStrFlag "-c:v" v.codec
  ++ (match v.crf with
      | some c => ["-crf", intStr c]
      | none =>
        match v.bitrate with
        | some b => if b = "" then [] else ["-b:v", b]
        | none => [])
  ++ (match v.fps with
      | some f => ["-r", numStr f]
      | none => [])
  ++ optStrFlag "-s" v.resolution
  ++ optStrFlag "-preset" v.preset
  ++ optStrFlag "-tune" v.tune
  ++ (if allowFilters then
        (if buildVideoFilters v = "" then [] else ["-vf", buildVideoFilters v])
      else [])

/-- `_apply_audio_params`. -/
def applyAudioParams (a : AudioParams) : List String :=
  optStrFlag "-c:a" a.codec
  ++ optStrFlag "-b:a" a.bitrate
  ++ (match a.sample_rate with
      | some n => if n = 0 then [] else ["-ar", natStr n]
      | none => [])
  ++ (match a.channels with
      | some n => if n = 0 then [] else ["-ac", natStr n]
      | none => [])
  ++ (if buildAudioFilters a = "" then [] else ["-af", buildAudioFilters a])

/-- `build_command(input_file, output_file, params)`. -/
def buildCommand (ffmpegPath inputFile outputFile : String) (p : Params) : List String :=
  [ffmpegPath, "-hide_banner"]
  ++ [if p.overwrite then "-y" else "-n"]
  ++ (match p.start with
      | some s => ["-ss", numStr s]
      | none => [])
  ++ ["-i", inputFile]
  ++ (match p.stop with
      | some e => ["-to", numStr e]
      | none => [])
  ++ applyVideoParams p.video true
  ++ applyAudioParams p.audio
  ++ p.extra_args
  ++ [outputFile]

/-- A merge input: a bare path (`str`/`Path`) or a mapping.  In a mapping,
`path = none` models an absent `"path"` key; a present key's value is its
`str()` (possibly empty). -/
structure InputRecord where
  path : Option String := none
  start : Option ℚ := none
  stop : Option ℚ := none
  width : Option Int := none
  height : Option Int := none
  has_audio : Option Bool := none
deriving DecidableEq, Repr

inductive PyInput where
  | path (p : String)
  | record (r : InputRecord)
deriving DecidableEq, Repr

/-- Build-time errors (`ValueError` / `TypeError`; the spec's
`InvalidArgument`). -/
inductive BuildError where
  | valueError (msg : String)
  | typeError (msg : String)
deriving DecidableEq, Repr

/-- A normalized input spec as produced by `_normalize_input_spec`. -/
structure NormSpec where
  path : String
  start : Option ℚ := none
  stop : Option ℚ := none
  width : Option Int := none
  height : Option Int := none
  has_audio : Option Bool := none
deriving DecidableEq, Repr

/-- `_normalize_input_spec`. -/
def normalizeInputSpec (item : PyInput) : Except BuildError NormSpec :=
  match item with
  | .path p => Except.ok ⟨p, none, none, none, none, none⟩
  | .record r =>
    match r.path with
    | none => Except.error (BuildError.valueError "Input mapping must include 'path'.")
    | some pa => Except.ok ⟨pa, r.start, r.stop, r.width, r.height, r.has_audio⟩

/-- The list comprehension `[self._normalize_input_spec(item) for item in inputs]`
(the first raised error propagates). -/
def normalizeAll : List PyInput → Except BuildError (List NormSpec)
  | [] => Except.ok []
  | i :: rest =>
    match normalizeInputSpec i with
    | .error e => Except.error e
    | .ok s =>
      match normalizeAll rest with
      | .error e => Except.error e
      | .ok ss => Except.ok (s :: ss)

/-- The explicit-resolution attempt of `_resolve_target_resolution`: a
truthy string different from `"auto"` (case-insensitively) that splits on
`"x"` into exactly two `int()`-parseable parts. -/
def tryParseResolution (r : Option String) : Option (Int × Int) :=
  match r with
  | none => none
  | some s =>
    if s ≠ "" ∧ pyLower s ≠ "auto" then
      match splitOnChar 'x' (pyLower s).data with
      | [a, b] =>
        match pyInt? a, pyInt? b with
        | some w, some h => some (w, h)
        | _, _ => none
      | _ => none
    else none

/-- The input-scanning loop of `_resolve_target_resolution` with its fixed
1920×1080 fallback (`if spec.get("width") and spec.get("height")`). -/
def resolveLoop : List NormSpec → Int × Int
  | [] => (1920, 1080)
  | s :: rest =>
    match s.width, s.height with
    | some w, some h => if w ≠ 0 ∧ h ≠ 0 then (w, h) else resolveLoop rest
    | _, _ => resolveLoop rest

/-- `_resolve_target_resolution`. -/
def resolveTargetResolution (specs : List NormSpec) (vp : VideoParams) : Int × Int :=
  match tryParseResolution vp.resolution with
  | some wh => wh
  | none => resolveLoop specs

/-- The first input carrying truthy width and height (claim-side reading
of the loop). -/
def firstSpecDims : List NormSpec → Option (Int × Int)
  | [] => none
  | s :: rest =>
    match s.width, s.height with
    | some w, some h => if w ≠ 0 ∧ h ≠ 0 then some (w, h) else firstSpecDims rest
    | _, _ => firstSpecDims rest

/-- The per-input video chain of `_build_concat_filter`. -/
def concatVideoPart (width height : Int) (idx : Nat) : String :=
  "[" ++ natStr idx ++ ":v]scale=" ++ intStr width ++ ":" ++ intStr height
    ++ ":force_original_aspect_ratio=decrease,pad=" ++ intStr width ++ ":" ++ intStr height
    ++ ":(ow-iw)/2:(oh-ih)/2,setsar=1,setpts=PTS-STARTPTS[v" ++ natStr idx ++ "]"

/-- The per-input audio chain of `_build_concat_filter`: a real resample
for inputs with audio, a generated silent track otherwise. -/
def concatAudioPart (audioRate : Nat) (idx : Nat) (hasAudio : Bool) : String :=
  if hasAudio then
    "[" ++ natStr idx ++ ":a]aresample=async=1:first_pts=0[a" ++ natStr idx ++ "]"
  else
    "anullsrc=channel_layout=stereo:sample_rate=" ++ natStr audioRate
      ++ ",asetpts=PTS-STARTPTS[a" ++ natStr idx ++ "]"

/-- `_build_concat_filter`: the filter graph, the final video label, and
the final audio label when audio is enabled. -/
def buildConcatFilter (specs : List NormSpec) (width height : Int)
    (audioEnabled : Bool) (audioRate : Nat) : String × String × Option String :=
  let idxSpecs := specs.enum
  let parts := idxSpecs.flatMap fun is =>
    [concatVideoPart width height is.1]
    ++ (if audioEnabled then [concatAudioPart audioRate is.1 (is.2.has_audio.getD true)] else [])
  let videoLabels := idxSpecs.map fun is => "[v" ++ natStr is.1 ++ "]"
  let audioLabels := if audioEnabled then idxSpecs.map fun is => "[a" ++ natStr is.1 ++ "]" else []
  let concatLine :=
    strJoin (videoLabels ++ audioLabels)
      ++ "concat=n=" ++ natStr specs.length ++ ":v=1:a=" ++ (if audioEnabled then "1" else "0")
      ++ "[vout]" ++ (if audioEnabled then "[aout]" else "")
  (joinSep ";" (parts ++ [concatLine]), "[vout]", if audioEnabled then some "[aout]" else none)

/-- The per-input trim/input flags of the merge build loop. -/
def inputTrimFlags (s : NormSpec) : List String :=
  (match s.start with
   | some v => ["-ss", numStr v]
   | none => [])
  ++ ["-i", s.path]
  ++ (match s.stop with
      | some v => ["-to", numStr v]
      | none => [])

/-- `build_merge_command(inputs, output_file, params)`. -/
def buildMergeCommand (ffmpegPath : String) (inputs : List PyInput) (outputFile : String)
    (p : Params) : Except BuildError (List String) :=
  if inputs.length < 2 then
    Except.error (BuildError.valueError "Merging requires at least two input files.")
  else
    match normalizeAll inputs with
    | .error e => Except.error e
    | .ok specs =>
      let wh := resolveTargetResolution specs p.video
      let audioEnabled := specs.any fun s => s.has_audio.getD true
      let audioRate :=
        match p.audio.sample_rate with
        | some n => if n = 0 then 48000 else n
        | none => 48000
      let fg := buildConcatFilter specs wh.1 wh.2 audioEnabled audioRate
      Except.ok
        ([ffmpegPath, "-hide_banner"]
          ++ [if p.overwrite then "-y" else "-n"]
          ++ specs.flatMap inputTrimFlags
          ++ ["-filter_complex", fg.1, "-map", fg.2.1]
          ++ (match fg.2.2 with
              | some a => ["-map", a]
              | none => [])
          ++ applyVideoParams p.video false
          ++ applyAudioParams p.audio
          ++ p.extra_args
          ++ [outputFile])

/-- The child processes `merge_files` spawns: none when the build raises,
exactly the built argv otherwise (`_execute` runs only after a successful
build). -/
def mergeSpawnedProcesses (ffmpegPath : String) (inputs : List PyInput) (outputFile : String)
    (p : Params) : List (List String) :=
  match buildMergeCommand ffmpegPath inputs outputFile p with
  | .ok cmd => [cmd]
  | .error _ => []

/-!
Embedding of `src/core/task_manager.py` as a labelled transition system.

One step per relevant source action: `submit` is `submit_conversion` /
`submit_merge` (register the task in QUEUED, notify the observer, then
schedule on the pool — scheduling succeeds only while the executor
accepts); `start` is a worker picking a scheduled task and running the
first half of `_run_conversion`/`_run_merge` (RUNNING transition +
notification); `finish` is the service call returning or raising
(COMPLETED, or `task.error = str(exc)` then FAILED, each notified);
`shutdown` is `executor.shutdown(wait=False, cancel_futures=True)`, which
stops admission and drops every not-yet-started future without touching
any task record.  Steps whose source-side precondition fails (starting a
task that is not scheduled, finishing one that is not running) leave the
state unchanged.  `log` records each observer invocation with the task
snapshot it sees.
-/

inductive TaskStatus where
  | queued
  | running
  | completed
  | failed
  | cancelled
deriving DecidableEq, Repr

structure MTask where
  status : TaskStatus
  error : Option String
deriving DecidableEq, Repr

structure Notification where
  id : Nat
  status : TaskStatus
  error : Option String
deriving DecidableEq, Repr

structure MgrState where
  tasks : Nat → Option MTask
  pending : List Nat
  accepting : Bool
  log : List Notification

def initState : MgrState :=
  { tasks := fun _ => none, pending := [], accepting := true, log := [] }

/-- `_update_task`: write the task record and invoke the observer once
with the current snapshot. -/
def notifyUpdate (s : MgrState) (id : Nat) (t : MTask) : MgrState :=
  { s with
    tasks := fun j => if j = id then some t else s.tasks j
    log := s.log ++ [⟨id, t.status, t.error⟩] }

inductive MgrEvent where
  | submit (id : Nat)
  | start (id : Nat)
  | finish (id : Nat) (outcome : Except String Unit)
  | shutdown

def stepEvent (s : MgrState) : MgrEvent → MgrState
  | .submit id =>
    let s1 := notifyUpdate s id ⟨.queued, none⟩
    if s.accepting then { s1 with pending := s1.pending ++ [id] } else s1
  | .start id =>
    if id ∈ s.pending then
      match s.tasks id with
      | some t => notifyUpdate { s with pending := s.pending.erase id } id { t with status := .running }
      | none => s
    else s
  | .finish id outcome =>
    match s.tasks id with
    | some t =>
      if t.status = .running then
        match outcome with
        | .ok _ => notifyUpdate s id { t with status := .completed }
        | .error e => notifyUpdate s id { status := .failed, error := some e }
      else s
    | none => s
  | .shutdown => { s with accepting := false, pending := [] }

def runFrom (s : MgrState) : List MgrEvent → MgrState
  | [] => s
  | e :: rest => runFrom (stepEvent s e) rest

def runEvents (events : List MgrEvent) : MgrState := runFrom initState events

/-- The outcome `service.convert`/`service.merge` delivers to
`_run_conversion`/`_run_merge` when a progress callback is supplied:
`run_with_progress` is called with `check=True`, so a non-zero exit
surfaces as `FFmpegError` and the stored error is its `str()` (the
message). -/
def convertOutcome (command : List String) (total : Option ℚ)
    (lines : List (String × ℚ)) (rc : Int) : Except String Unit :=
  match (runWithProgress command total true lines rc).2 with
  | .error e => Except.error e.message
  | .ok _ => Except.ok ()

/-- One submitted task whose child process produces `lines` on stderr and
exits with `rc`: submission, pool pickup, service call. -/
def taskScenario (command : List String) (total : Option ℚ)
    (lines : List (String × ℚ)) (rc : Int) : MgrState :=
  runEvents [.submit 0, .start 0, .finish 0 (convertOutcome command total lines rc)]

/-! Claim-side predicates. -/

/-- Whether a merge input carries a `"path"` key at all (bare paths always
do; for mappings this is key presence, regardless of the value). -/
def hasPathKey : PyInput → Bool
  | .path _ => true
  | .record r => r.path.isSome

/-- None of the caller-supplied free-form strings of a single-input build
is the literal token `tok` (such strings are copied verbatim into the
argument vector, so they can inject arbitrary tokens). -/
def tokenFree (tok ffmpegPath inputFile outputFile : String) (p : Params) : Prop :=
  tok ∉ p.extra_args ∧ ffmpegPath ≠ tok ∧ inputFile ≠ tok ∧ outputFile ≠ tok ∧
  p.video.codec ≠ some tok ∧ p.video.bitrate ≠ some tok ∧ p.video.resolution ≠ some tok ∧
  p.video.preset ≠ some tok ∧ p.video.tune ≠ some tok ∧
  p.audio.codec ≠ some tok ∧ p.audio.bitrate ≠ some tok

instance (tok fp i o : String) (p : Params) : Decidable (tokenFree tok fp i o p) := by
  unfold tokenFree; infer_instance

/-!
Theorems.  First a toolbox of small lemmas about the embedding, then one
theorem per specification claim (with concrete witness or counterexample
instances).
-/

theorem not_mem_append2 {α : Type} {a : α} {l1 l2 : List α} (h1 : a ∉ l1) (h2 : a ∉ l2) :
    a ∉ l1 ++ l2 := fun h => (List.mem_append.mp h).elim h1 h2

theorem string_data_append (s t : String) : (s ++ t).data = s.data ++ t.data := rfl

theorem string_ne_of_pred (p : Char → Bool) (s t : String) (hs : ∀ c ∈ s.data, p c = true)
    (c : Char) (hct : c ∈ t.data) (hpc : p c = false) : s ≠ t := by
  intro he
  subst he
  rw [hs c hct] at hpc
  cases hpc

theorem append_ne_empty_left (s t : String) (h : s.data ≠ []) : s ++ t ≠ "" := by
  intro he
  apply h
  have hd := congrArg String.data he
  rw [string_data_append] at hd
  exact (List.append_eq_nil.mp hd).1

theorem digitChar_isDigit (n : Nat) (h : n < 10) : (digitChar n).isDigit = true := by
  interval_cases n <;> decide

theorem natDigitsAux_isDigit (fuel : Nat) :
    ∀ n c, c ∈ natDigitsAux fuel n → c.isDigit = true := by
  induction fuel with
  | zero => intro n c hc; cases hc
  | succ fuel ih =>
    intro n c hc
    unfold natDigitsAux at hc
    split at hc
    · rw [List.mem_singleton] at hc
      subst hc
      exact digitChar_isDigit n (by omega)
    · rcases List.mem_append.mp hc with h1 | h2
      · exact ih _ c h1
      · rw [List.mem_singleton] at h2
        subst h2
        exact digitChar_isDigit _ (Nat.mod_lt _ (by omega))

theorem natStr_isDigit (n : Nat) : ∀ c ∈ (natStr n).data, c.isDigit = true := by
  intro c hc
  exact natDigitsAux_isDigit _ _ _ hc

theorem natStr_numLike (n : Nat) : ∀ c ∈ (natStr n).data, numLikeChar c = true := by
  intro c hc
  simp [numLikeChar, natStr_isDigit n c hc]

theorem intStr_numLike (i : Int) : ∀ c ∈ (intStr i).data, numLikeChar c = true := by
  intro c hc
  unfold intStr at hc
  split at hc
  · rw [string_data_append] at hc
    rcases List.mem_append.mp hc with h1 | h2
    · rw [List.mem_singleton.mp h1]; decide
    · exact natStr_numLike _ c h2
  · exact natStr_numLike _ c hc

theorem mem_padded_digits (k m : Nat) (c : Char)
    (hc : c ∈ List.replicate k '0' ++ natDigits m) : c.isDigit = true := by
  rcases List.mem_append.mp hc with h1 | h2
  · rw [List.eq_of_mem_replicate h1]; decide
  · exact natDigitsAux_isDigit _ _ _ h2

theorem mem_sign_chars (P : Prop) [Decidable P] (c : Char)
    (hc : c ∈ ((if P then "-" else "") : String).data) : c = '-' := by
  split at hc
  · exact List.mem_singleton.mp hc
  · cases hc

theorem pyFloatStr_numLike (q : ℚ) : ∀ c ∈ (pyFloatStr q).data, numLikeChar c = true := by
  intro c hc
  unfold pyFloatStr at hc
  dsimp only at hc
  split at hc
  · split at hc
    · rw [string_data_append, string_data_append] at hc
      rcases List.mem_append.mp hc with h1 | h2
      · rcases List.mem_append.mp h1 with h3 | h4
        · rw [mem_sign_chars _ c h3]; decide
        · exact natStr_numLike _ c h4
      · rcases List.mem_cons.mp h2 with h5 | h6
        · rw [h5]; decide
        · rw [List.mem_singleton.mp h6]; decide
    · rw [string_data_append, string_data_append, string_data_append] at hc
      rcases List.mem_append.mp hc with h1 | h2
      · rcases List.mem_append.mp h1 with h3 | h4
        · rcases List.mem_append.mp h3 with h5 | h6
          · rw [mem_sign_chars _ c h5]; decide
          · have h7 := mem_padded_digits _ _ c (List.mem_of_mem_take h6)
            simp [numLikeChar, h7]
        · rw [List.mem_singleton.mp h4]; decide
      · have h7 := mem_padded_digits _ _ c (List.mem_of_mem_drop h2)
        simp [numLikeChar, h7]
  · rw [string_data_append, string_data_append, string_data_append] at hc
    rcases List.mem_append.mp hc with h1 | h2
    · rcases List.mem_append.mp h1 with h3 | h4
      · rcases List.mem_append.mp h3 with h5 | h6
        · rw [mem_sign_chars _ c h5]; decide
        · exact natStr_numLike _ c h6
      · rw [List.mem_singleton.mp h4]; decide
    · exact natStr_numLike _ c h2

theorem numStr_numLike (q : ℚ) : ∀ c ∈ (numStr q).data, numLikeChar c = true := by
  intro c hc
  unfold numStr at hc
  split at hc
  · exact intStr_numLike _ c hc
  · exact pyFloatStr_numLike _ c hc

theorem floatStrOfInt_numLike (i : Int) : ∀ c ∈ (floatStrOfInt i).data, numLikeChar c = true := by
  intro c hc
  unfold floatStrOfInt at hc
  rw [string_data_append] at hc
  rcases List.mem_append.mp hc with h1 | h2
  · exact intStr_numLike _ c h1
  · rcases List.mem_cons.mp h2 with h3 | h3
    · subst h3; decide
    · rw [List.mem_singleton.mp h3]; decide

theorem numStr_ne_bv (q : ℚ) : numStr q ≠ "-b:v" :=
  string_ne_of_pred numLikeChar _ _ (numStr_numLike q) 'b' (by decide) (by decide)

theorem numStr_ne_crf (q : ℚ) : numStr q ≠ "-crf" :=
  string_ne_of_pred numLikeChar _ _ (numStr_numLike q) 'c' (by decide) (by decide)

theorem intStr_ne_bv (i : Int) : intStr i ≠ "-b:v" :=
  string_ne_of_pred numLikeChar _ _ (intStr_numLike i) 'b' (by decide) (by decide)

theorem intStr_ne_crf (i : Int) : intStr i ≠ "-crf" :=
  string_ne_of_pred numLikeChar _ _ (intStr_numLike i) 'c' (by decide) (by decide)

theorem natStr_ne_bv (n : Nat) : natStr n ≠ "-b:v" :=
  string_ne_of_pred numLikeChar _ _ (natStr_numLike n) 'b' (by decide) (by decide)

theorem natStr_ne_crf (n : Nat) : natStr n ≠ "-crf" :=
  string_ne_of_pred numLikeChar _ _ (natStr_numLike n) 'c' (by decide) (by decide)

/-- Claim C9: `build_convert` and `build_merge` are deterministic — two
calls with identical inputs, outputs and parameter maps produce identical
argument vectors.  The builders are embedded as pure functions of exactly
their source inputs (no clock, randomness or ambient state is consumed by
the source), so equal arguments yield equal argv. -/
theorem build_commands_deterministic :
    (∀ (fp i o : String) (p q : Params), p = q →
      buildCommand fp i o p = buildCommand fp i o q) ∧
    (∀ (fp : String) (ins ins2 : List PyInput) (o : String) (p q : Params),
      ins = ins2 → p = q →
      buildMergeCommand fp ins o p = buildMergeCommand fp ins2 o q) := by
  constructor
  · intro fp i o p q h
    rw [h]
  · intro fp ins ins2 o p q h1 h2
    rw [h1, h2]

theorem build_commands_deterministic_witness :
    buildCommand "ffmpeg" "in.mp4" "out.mp4" {} = buildCommand "ffmpeg" "in.mp4" "out.mp4" {} ∧
    buildMergeCommand "ffmpeg" [PyInput.path "a.mp4", PyInput.path "b.mp4"] "out.mp4" {} =
      buildMergeCommand "ffmpeg" [PyInput.path "a.mp4", PyInput.path "b.mp4"] "out.mp4" {} :=
  ⟨build_commands_deterministic.1 "ffmpeg" "in.mp4" "out.mp4" {} {} rfl,
   build_commands_deterministic.2 "ffmpeg" [PyInput.path "a.mp4", PyInput.path "b.mp4"]
     [PyInput.path "a.mp4", PyInput.path "b.mp4"] "out.mp4" {} {} rfl rfl⟩

/-- Claim C4: for every input list with fewer than two entries,
`build_merge` fails with `InvalidArgument` (the source's `ValueError`)
synchronously at build time — consequently `merge_files` spawns no child
process. -/
theorem merge_arity_invalid_argument (fp : String) (inputs : List PyInput) (o : String)
    (p : Params) (h : inputs.length < 2) :
    buildMergeCommand fp inputs o p =
      Except.error (BuildError.valueError "Merging requires at least two input files.") ∧
    mergeSpawnedProcesses fp inputs o p = [] := by
  have hb : buildMergeCommand fp inputs o p =
      Except.error (BuildError.valueError "Merging requires at least two input files.") := by
    unfold buildMergeCommand
    rw [if_pos h]
  refine ⟨hb, ?_⟩
  unfold mergeSpawnedProcesses
  rw [hb]

theorem merge_arity_invalid_argument_witness :
    buildMergeCommand "ffmpeg" [PyInput.path "only.mp4"] "out.mp4" {} =
      Except.error (BuildError.valueError "Merging requires at least two input files.") ∧
    mergeSpawnedProcesses "ffmpeg" [PyInput.path "only.mp4"] "out.mp4" {} = [] :=
  merge_arity_invalid_argument "ffmpeg" [PyInput.path "only.mp4"] "out.mp4" {} (by decide)

theorem normalizeAll_ok_of_paths (inputs : List PyInput)
    (hp : ∀ i ∈ inputs, hasPathKey i = true) :
    ∃ specs, normalizeAll inputs = Except.ok specs := by
  induction inputs with
  | nil => exact ⟨[], rfl⟩
  | cons i rest ih =>
    obtain ⟨ss, hss⟩ := ih fun j hj => hp j (List.mem_cons_of_mem i hj)
    have hi := hp i (List.mem_cons_self i rest)
    cases i with
    | path pa =>
      refine ⟨⟨pa, none, none, none, none, none⟩ :: ss, ?_⟩
      unfold normalizeAll normalizeInputSpec
      rw [hss]
    | record r =>
      cases hr : r.path with
      | none => rw [hasPathKey, hr] at hi; cases hi
      | some pa =>
        refine ⟨⟨pa, r.start, r.stop, r.width, r.height, r.has_audio⟩ :: ss, ?_⟩
        unfold normalizeAll normalizeInputSpec
        dsimp only
        rw [hr, hss]

/-- Claim C10: `build_merge` rejects a mapping input only when the
`"path"` key is entirely absent.  Whenever the list has at least two
entries and every mapping entry carries the key — even with an empty
string value — the build succeeds (the spec's `path non-empty` invariant
is not enforced at the build boundary). -/
theorem merge_accepts_any_present_path (fp : String) (inputs : List PyInput) (o : String)
    (p : Params) (h2 : 2 ≤ inputs.length) (hp : ∀ i ∈ inputs, hasPathKey i = true) :
    ∃ cmd, buildMergeCommand fp inputs o p = Except.ok cmd := by
  obtain ⟨specs, hs⟩ := normalizeAll_ok_of_paths inputs hp
  cases hb : buildMergeCommand fp inputs o p with
  | ok cmd => exact ⟨cmd, rfl⟩
  | error e =>
    unfold buildMergeCommand at hb
    rw [if_neg (by omega), hs] at hb
    cases hb

theorem merge_accepts_any_present_path_witness :
    ∃ cmd, buildMergeCommand "ffmpeg"
      [PyInput.record { path := some "" }, PyInput.path "b.mp4"] "out.mp4" {} =
      Except.ok cmd :=
  merge_accepts_any_present_path "ffmpeg"
    [PyInput.record { path := some "" }, PyInput.path "b.mp4"] "out.mp4" {}
    (by decide) (by decide)

theorem resolveLoop_eq_firstSpecDims (specs : List NormSpec) :
    resolveLoop specs = (firstSpecDims specs).getD (1920, 1080) := by
  induction specs with
  | nil => rfl
  | cons s rest ih =>
    unfold resolveLoop firstSpecDims
    cases s.width with
    | none => exact ih
    | some w =>
      cases s.height with
      | none => exact ih
      | some h =>
        dsimp only
        split
        · rfl
        · exact ih

/-- Claim C8: the shared target resolution of `build_merge` is resolved in
order — an explicit non-`"auto"` `WxH` parameter wins; otherwise the first
input with both (truthy) width and height; otherwise the fixed
1920×1080 fallback. -/
theorem merge_target_resolution (specs : List NormSpec) (vp : VideoParams) :
    (∀ w h, tryParseResolution vp.resolution = some (w, h) →
      resolveTargetResolution specs vp = (w, h)) ∧
    (tryParseResolution vp.resolution = none →
      (∀ w h, firstSpecDims specs = some (w, h) → resolveTargetResolution specs vp = (w, h)) ∧
      (firstSpecDims specs = none → resolveTargetResolution specs vp = (1920, 1080))) := by
  constructor
  · intro w h hp
    unfold resolveTargetResolution
    rw [hp]
  · intro hn
    constructor
    · intro w h hf
      unfold resolveTargetResolution
      rw [hn, resolveLoop_eq_firstSpecDims, hf]
      rfl
    · intro hf
      unfold resolveTargetResolution
      rw [hn, resolveLoop_eq_firstSpecDims, hf]
      rfl

theorem merge_target_resolution_witness :
    tryParseResolution (some "1280x720") = some (1280, 720) ∧
    resolveTargetResolution [] { resolution := some "1280x720" } = (1280, 720) ∧
    firstSpecDims
      [⟨"a.mp4", none, none, some 1920, some 1080, some true⟩,
       ⟨"b.mp4", none, none, some 1920, some 1080, some true⟩,
       ⟨"c.mp4", none, none, some 1280, some 720, some false⟩] = some (1920, 1080) ∧
    resolveTargetResolution
      [⟨"a.mp4", none, none, some 1920, some 1080, some true⟩,
       ⟨"b.mp4", none, none, some 1920, some 1080, some true⟩,
       ⟨"c.mp4", none, none, some 1280, some 720, some false⟩] {} = (1920, 1080) :=
  ⟨by decide,
   (merge_target_resolution [] { resolution := some "1280x720" }).1 1280 720 (by decide),
   by decide,
   ((merge_target_resolution
      [⟨"a.mp4", none, none, some 1920, some 1080, some true⟩,
       ⟨"b.mp4", none, none, some 1920, some 1080, some true⟩,
       ⟨"c.mp4", none, none, some 1280, some 720, some false⟩] {}).2 rfl).1 1920 1080 (by decide)⟩

/-- Claim C6: right-angle rotations 90/180/270 contribute the fixed
canonical transpose clause to the video filter expression; any other
rotation that is not a multiple of 360 contributes the radian-converted
clause `rotate=θ*PI/180` (with `θ` rendered as `float(θ)`); rotations that
are multiples of 360 — including 0 and an absent value — contribute no
rotation clause at all. -/
theorem rotation_filter_mapping (v : VideoParams) :
    (v.rotate = some 90 →
      rotateClause v.rotate = some "transpose=1" ∧ "transpose=1" ∈ vfClauses v) ∧
    (v.rotate = some 180 →
      rotateClause v.rotate = some "transpose=2,transpose=2" ∧
      "transpose=2,transpose=2" ∈ vfClauses v) ∧
    (v.rotate = some 270 →
      rotateClause v.rotate = some "transpose=2" ∧ "transpose=2" ∈ vfClauses v) ∧
    (∀ a : Int, v.rotate = some a → a ≠ 90 → a ≠ 180 → a ≠ 270 → a % 360 ≠ 0 →
      rotateClause v.rotate = some ("rotate=" ++ floatStrOfInt a ++ "*PI/180") ∧
      ("rotate=" ++ floatStrOfInt a ++ "*PI/180") ∈ vfClauses v) ∧
    (∀ a : Int, v.rotate = some a → a % 360 = 0 →
      rotateClause v.rotate = none ∧
      vfClauses v = (cropClause v.crop).toList ++ (eqClause v.color).toList) ∧
    (v.rotate = none →
      rotateClause v.rotate = none ∧
      vfClauses v = (cropClause v.crop).toList ++ (eqClause v.color).toList) := by
  refine ⟨?_, ?_, ?_, ?_, ?_, ?_⟩
  · intro h
    have hc : rotateClause v.rotate = some "transpose=1" := by rw [h]; rfl
    exact ⟨hc, by simp [vfClauses, hc]⟩
  · intro h
    have hc : rotateClause v.rotate = some "transpose=2,transpose=2" := by rw [h]; rfl
    exact ⟨hc, by simp [vfClauses, hc]⟩
  · intro h
    have hc : rotateClause v.rotate = some "transpose=2" := by rw [h]; rfl
    exact ⟨hc, by simp [vfClauses, hc]⟩
  · intro a h h90 h180 h270 hm
    have h0 : a ≠ 0 := by omega
    have hc : rotateClause v.rotate = some ("rotate=" ++ floatStrOfInt a ++ "*PI/180") := by
      rw [h]
      unfold rotateClause
      dsimp only
      rw [if_neg h90, if_neg h180, if_neg h270, if_pos ⟨h0, hm⟩]
    exact ⟨hc, by simp [vfClauses, hc]⟩
  · intro a h hm
    have h90 : a ≠ 90 := by omega
    have h180 : a ≠ 180 := by omega
    have h270 : a ≠ 270 := by omega
    have hc : rotateClause v.rotate = none := by
      rw [h]
      unfold rotateClause
      dsimp only
      rw [if_neg h90, if_neg h180, if_neg h270, if_neg (by tauto)]
    exact ⟨hc, by simp [vfClauses, hc]⟩
  · intro h
    have hc : rotateClause v.rotate = none := by rw [h]; rfl
    exact ⟨hc, by simp [vfClauses, hc]⟩

theorem rotation_filter_mapping_witness :
    rotateClause (some 90) = some "transpose=1" ∧
    rotateClause (some 180) = some "transpose=2,transpose=2" ∧
    rotateClause (some 270) = some "transpose=2" ∧
    rotateClause (some 45) = some "rotate=45.0*PI/180" ∧
    rotateClause (some 720) = none ∧
    "rotate=45.0*PI/180" ∈ vfClauses { rotate := some 45 } :=
  ⟨((rotation_filter_mapping { rotate := some 90 }).1 rfl).1,
   ((rotation_filter_mapping { rotate := some 180 }).2.1 rfl).1,
   ((rotation_filter_mapping { rotate := some 270 }).2.2.1 rfl).1,
   ((rotation_filter_mapping { rotate := some 45 }).2.2.2.1 45 rfl
      (by decide) (by decide) (by decide) (by decide)).1,
   ((rotation_filter_mapping { rotate := some 720 }).2.2.2.2.1 720 rfl (by decide)).1,
   ((rotation_filter_mapping { rotate := some 45 }).2.2.2.1 45 rfl
      (by decide) (by decide) (by decide) (by decide)).2⟩

theorem stepEvent_no_cancelled (s : MgrState) (e : MgrEvent)
    (h : ∀ id t, s.tasks id = some t → t.status ≠ TaskStatus.cancelled) :
    ∀ id t, (stepEvent s e).tasks id = some t → t.status ≠ TaskStatus.cancelled := by
  cases e with
  | submit i =>
    intro id t ht
    unfold stepEvent notifyUpdate at ht
    dsimp only at ht
    by_cases ha : s.accepting
    · rw [if_pos ha] at ht
      dsimp only at ht
      split at ht
      · cases ht; simp
      · exact h id t ht
    · rw [if_neg ha] at ht
      dsimp only at ht
      split at ht
      · cases ht; simp
      · exact h id t ht
  | start i =>
    intro id t ht
    unfold stepEvent at ht
    dsimp only at ht
    by_cases hp : i ∈ s.pending
    · rw [if_pos hp] at ht
      cases hti : s.tasks i with
      | none => rw [hti] at ht; exact h id t ht
      | some t0 =>
        rw [hti] at ht
        unfold notifyUpdate at ht
        dsimp only at ht
        split at ht
        · cases ht; simp
        · exact h id t ht
    · rw [if_neg hp] at ht
      exact h id t ht
  | finish i outcome =>
    intro id t ht
    unfold stepEvent at ht
    dsimp only at ht
    cases hti : s.tasks i with
    | none => rw [hti] at ht; exact h id t ht
    | some t0 =>
      rw [hti] at ht
      dsimp only at ht
      by_cases hst : t0.status = TaskStatus.running
      · rw [if_pos hst] at ht
        cases outcome with
        | ok u =>
          unfold notifyUpdate at ht
          dsimp only at ht
          split at ht
          · cases ht; simp
          · exact h id t ht
        | error e =>
          unfold notifyUpdate at ht
          dsimp only at ht
          split at ht
          · cases ht; simp
          · exact h id t ht
      · rw [if_neg hst] at ht
        exact h id t ht
  | shutdown =>
    intro id t ht
    exact h id t ht

theorem runFrom_no_cancelled (events : List MgrEvent) :
    ∀ s : MgrState, (∀ id t, s.tasks id = some t → t.status ≠ TaskStatus.cancelled) →
      ∀ id t, (runFrom s events).tasks id = some t → t.status ≠ TaskStatus.cancelled := by
  induction events with
  | nil => intro s h; exact h
  | cons e rest ih =>
    intro s h
    exact ih (stepEvent s e) (stepEvent_no_cancelled s e h)

theorem runFrom_append (s : MgrState) (l1 l2 : List MgrEvent) :
    runFrom s (l1 ++ l2) = runFrom (runFrom s l1) l2 := by
  induction l1 generalizing s with
  | nil => rfl
  | cons e rest ih =>
    rw [List.cons_append]
    exact ih (stepEvent s e)

/-- Claim C3 (amended): `shutdown()` stops admission and drops every
not-yet-started future, so tasks still QUEUED never run — but their
recorded status stays QUEUED.  The CANCELLED status value is never
assigned by any execution: along every event sequence no registered task
ever has status CANCELLED (in particular there is no RUNNING→CANCELLED
transition). -/
theorem cancelled_status_unreachable :
    (∀ (events : List MgrEvent) (id : Nat) (t : MTask),
      (runEvents events).tasks id = some t → t.status ≠ TaskStatus.cancelled) ∧
    (∀ events : List MgrEvent,
      (runEvents (events ++ [MgrEvent.shutdown])).pending = [] ∧
      (runEvents (events ++ [MgrEvent.shutdown])).accepting = false) := by
  constructor
  · intro events id t ht
    exact runFrom_no_cancelled events initState (fun id t h => by cases h) id t ht
  · intro events
    unfold runEvents
    rw [runFrom_append]
    exact ⟨rfl, rfl⟩

theorem cancelled_status_unreachable_witness :
    ∃ t : MTask,
      (runEvents [MgrEvent.submit 0, MgrEvent.shutdown]).tasks 0 = some t ∧
      t.status ≠ TaskStatus.cancelled ∧
      (runEvents ([MgrEvent.submit 0] ++ [MgrEvent.shutdown])).pending = [] :=
  ⟨⟨TaskStatus.queued, none⟩, by decide,
   cancelled_status_unreachable.1 [MgrEvent.submit 0, MgrEvent.shutdown] 0
     ⟨TaskStatus.queued, none⟩ (by decide),
   (cancelled_status_unreachable.2 [MgrEvent.submit 0]).1⟩

/-- Claim C3 is false as stated: after `shutdown()` a task that was still
QUEUED remains recorded as QUEUED — it is not moved to CANCELLED (no code
path ever assigns the CANCELLED status). -/
theorem shutdown_keeps_queued_counterexample :
    (runEvents [MgrEvent.submit 0, MgrEvent.shutdown]).tasks 0 =
      some ⟨TaskStatus.queued, none⟩ ∧
    TaskStatus.queued ≠ TaskStatus.cancelled := by
  constructor
  · decide
  · decide

theorem taskScenario_failed (command : List String) (total : Option ℚ)
    (lines : List (String × ℚ)) (rc : Int) (h : rc ≠ 0) :
    (taskScenario command total lines rc).log =
      [⟨0, TaskStatus.queued, none⟩, ⟨0, TaskStatus.running, none⟩,
       ⟨0, TaskStatus.failed, some ("FFmpeg exited with code " ++ intStr rc)⟩] ∧
    (taskScenario command total lines rc).tasks 0 =
      some ⟨TaskStatus.failed, some ("FFmpeg exited with code " ++ intStr rc)⟩ := by
  have hco : convertOutcome command total lines rc =
      Except.error ("FFmpeg exited with code " ++ intStr rc) := by
    unfold convertOutcome runWithProgress
    dsimp only
    rw [if_pos ⟨rfl, h⟩]
  unfold taskScenario runEvents
  rw [hco]
  exact ⟨rfl, rfl⟩

/-- Claim C2 (amended): a submitted task whose process exits non-zero
transitions QUEUED→RUNNING→FAILED, the observer is invoked exactly three
times (once per state, with the task in that state), and the FAILED task
carries the non-empty error message `FFmpeg exited with code N` — derived
from the exit code, not from the captured stderr (which the progress path
consumes for parsing and does not store). -/
theorem failing_task_lifecycle (command : List String) (total : Option ℚ)
    (lines : List (String × ℚ)) (rc : Int) (h : rc ≠ 0) :
    (taskScenario command total lines rc).log =
      [⟨0, TaskStatus.queued, none⟩, ⟨0, TaskStatus.running, none⟩,
       ⟨0, TaskStatus.failed, some ("FFmpeg exited with code " ++ intStr rc)⟩] ∧
    (taskScenario command total lines rc).tasks 0 =
      some ⟨TaskStatus.failed, some ("FFmpeg exited with code " ++ intStr rc)⟩ ∧
    "FFmpeg exited with code " ++ intStr rc ≠ "" := by
  obtain ⟨h1, h2⟩ := taskScenario_failed command total lines rc h
  exact ⟨h1, h2, append_ne_empty_left _ _ (by decide)⟩

theorem failing_task_lifecycle_witness :
    (taskScenario ["ffmpeg"] none [("boom boom", 0)] 1).log =
      [⟨0, TaskStatus.queued, none⟩, ⟨0, TaskStatus.running, none⟩,
       ⟨0, TaskStatus.failed, some "FFmpeg exited with code 1"⟩] :=
  (failing_task_lifecycle ["ffmpeg"] none [("boom boom", 0)] 1 (by decide)).1

/-- Claim C2 is false in its stderr clause: the stored error message is
computed from the exit code alone — two runs that differ only in the
captured stderr produce the same error, and the stderr text does not occur
in it. -/
theorem failing_task_error_not_from_stderr :
    (taskScenario ["ffmpeg"] none [("boom boom", 0)] 1).tasks 0 =
      some ⟨TaskStatus.failed, some "FFmpeg exited with code 1"⟩ ∧
    (taskScenario ["ffmpeg"] none [("completely different stderr", 0)] 1).tasks 0 =
      (taskScenario ["ffmpeg"] none [("boom boom", 0)] 1).tasks 0 ∧
    ¬ List.IsInfix "boom".data "FFmpeg exited with code 1".data := by
  refine ⟨?_, ?_, ?_⟩
  · decide
  · decide
  · decide

theorem createProgressUpdate_done (line : String) (total : Option ℚ) (elapsed : ℚ) :
    (createProgressUpdate line total elapsed).done = false := rfl

theorem foldl_progress_getLastD (us : List ProgressUpdate) :
    ∀ a : ℚ,
      us.foldl (fun acc u =>
        match u.progress with
        | some p => p
        | none => acc) a =
      (us.filterMap ProgressUpdate.progress).getLastD a := by
  induction us with
  | nil => intro a; rfl
  | cons u rest ih =>
    intro a
    rw [List.foldl_cons, List.filterMap_cons]
    cases hp : u.progress with
    | none =>
      simp only [hp]
      exact ih a
    | some p =>
      simp only [hp]
      rw [List.getLastD_cons]
      exact ih p

theorem lastProgressOf_eq (us : List ProgressUpdate) :
    lastProgressOf us = (us.filterMap ProgressUpdate.progress).getLastD 0 :=
  foldl_progress_getLastD us 0

/-- Claim C1: after the child exits, `run_with_progress` delivers exactly
one terminal update, and it is the last delivered: on exit code 0 it has
progress 1.0, current time equal to the total duration and eta 0; on a
non-zero exit it carries the last observed progress (0.0 when none was
observed) with eta unset; in both cases `done` is set and the exit code is
recorded.  With `check` set and a non-zero exit, the `FFmpegError` (the
spec's `ExternalToolError`) is raised only after the terminal update is in
the delivered trace. -/
theorem run_with_progress_terminal (command : List String) (total : Option ℚ) (check : Bool)
    (lines : List (String × ℚ)) (rc : Int) :
    ∃ fin : ProgressUpdate,
      (runWithProgress command total check lines rc).1.getLast? = some fin ∧
      fin.done = true ∧
      fin.return_code = some rc ∧
      (∀ u ∈ (runWithProgress command total check lines rc).1.dropLast, u.done = false) ∧
      (rc = 0 → fin.progress = some 1 ∧ fin.current_time = total ∧ fin.eta = some 0) ∧
      (rc ≠ 0 →
        fin.progress =
          some (((lineUpdates lines total).filterMap ProgressUpdate.progress).getLastD 0) ∧
        fin.eta = none ∧ fin.current_time = none) ∧
      (check = true → rc ≠ 0 →
        (runWithProgress command total check lines rc).2 =
          Except.error ⟨"FFmpeg exited with code " ++ intStr rc, command, "", ""⟩) ∧
      (check = false ∨ rc = 0 →
        (runWithProgress command total check lines rc).2 =
          Except.ok ⟨rc, "", "", command⟩) := by
  have hl : (runWithProgress command total check lines rc).1 =
      lineUpdates lines total ++
        [finalUpdate total (lastProgressOf (lineUpdates lines total)) rc] := rfl
  refine ⟨finalUpdate total (lastProgressOf (lineUpdates lines total)) rc, ?_, ?_, ?_, ?_, ?_, ?_, ?_, ?_⟩
  · rw [hl, List.getLast?_concat]
  · rfl
  · rfl
  · rw [hl, List.dropLast_concat]
    intro u hu
    obtain ⟨le, _, hle⟩ := List.mem_map.mp hu
    rw [← hle]
    exact createProgressUpdate_done _ _ _
  · intro h0
    unfold finalUpdate
    rw [if_pos h0, if_pos h0, if_pos h0]
    exact ⟨rfl, rfl, rfl⟩
  · intro hne
    unfold finalUpdate
    rw [if_neg hne, if_neg hne, if_neg hne]
    exact ⟨by rw [lastProgressOf_eq], rfl, rfl⟩
  · intro hc hne
    show (if check ∧ rc ≠ 0 then _ else _) = _
    rw [if_pos ⟨hc, hne⟩]
  · intro hor
    show (if check ∧ rc ≠ 0 then _ else _) = _
    rcases hor with hc | h0
    · rw [if_neg (by simp [hc])]
    · rw [if_neg (by simp [h0])]

theorem run_with_progress_terminal_witness :
    ∃ fin : ProgressUpdate,
      (runWithProgress ["ffmpeg"] none true [("garbled line", 0)] 1).1.getLast? = some fin ∧
      fin.done = true ∧ fin.return_code = some 1 ∧
      fin.progress = some 0 ∧ fin.eta = none ∧
      (runWithProgress ["ffmpeg"] none true [("garbled line", 0)] 1).2 =
        Except.error ⟨"FFmpeg exited with code 1", ["ffmpeg"], "", ""⟩ := by
  obtain ⟨fin, h1, h2, h3, _h4, _h5, h6, h7, _h8⟩ :=
    run_with_progress_terminal ["ffmpeg"] none true [("garbled line", 0)] 1
  obtain ⟨hp, he, _⟩ := h6 (by decide)
  refine ⟨fin, h1, h2, h3, ?_, he, h7 rfl (by decide)⟩
  rw [hp]
  decide

theorem pyOr0_some (t : ℚ) : pyOr0 (some t) = t := by
  by_cases h : t = 0
  · simp [pyOr0, h]
  · simp [pyOr0, h]

/-- Claim C7: for every diagnostic line, the per-line update satisfies —
with a `time=` match and a known positive total duration, progress is
`min(time/total, 1.0)` and the current time is the parsed timestamp; with
additionally a positive parsed speed, eta is
`max((total − time)/speed, 0)`; without a `time=` match, progress is
absent. -/
theorem progress_line_parsing (line : String) (total : Option ℚ) (elapsed : ℚ) :
    (searchTime line.data = none → (createProgressUpdate line total elapsed).progress = none) ∧
    (∀ (g : TimeMatch) (d : ℚ), searchTime line.data = some g → total = some d → 0 < d →
      (createProgressUpdate line total elapsed).progress = some (min (parseTimecode g / d) 1) ∧
      (createProgressUpdate line total elapsed).current_time = some (parseTimecode g)) ∧
    (∀ (g : TimeMatch) (d : ℚ) (sg ip fp : List Char),
      searchTime line.data = some g → total = some d → 0 < d →
      searchSpeed line.data = some sg → floatParts? sg = some (ip, fp) →
      0 < decVal ip fp →
      (createProgressUpdate line total elapsed).eta =
        some (max ((d - parseTimecode g) / decVal ip fp) 0)) := by
  refine ⟨?_, ?_, ?_⟩
  · intro hs
    unfold createProgressUpdate
    dsimp only
    rw [hs]
    rfl
  · intro g d hg ht hd
    subst ht
    unfold createProgressUpdate
    dsimp only
    rw [hg]
    dsimp only [Option.map]
    rw [if_pos hd]
    exact ⟨rfl, rfl⟩
  · intro g d sg ip fp hg ht hd hsg hfp hsv
    subst ht
    unfold createProgressUpdate
    dsimp only
    rw [hg, hsg]
    dsimp only [Option.map]
    rw [hfp]
    dsimp only [Option.map]
    rw [if_pos hd]
    dsimp only
    rw [if_pos ⟨hsv, hd.ne'⟩, pyOr0_some]

theorem progress_line_parsing_witness :
    (createProgressUpdate "frame=100 time=00:00:05.00 speed=2.0x" (some 10) 0).progress =
      some (1 / 2 : ℚ) ∧
    (createProgressUpdate "frame=100 time=00:00:05.00 speed=2.0x" (some 10) 0).eta =
      some (5 / 2 : ℚ) ∧
    (createProgressUpdate "frame=42 size=1024kB" (some 10) 0).progress = none := by
  obtain ⟨_, hTime, hEta⟩ :=
    progress_line_parsing "frame=100 time=00:00:05.00 speed=2.0x" (some 10) 0
  have hg : searchTime ("frame=100 time=00:00:05.00 speed=2.0x").data =
      some ⟨['0', '0'], ['0', '0'], ['0', '5'], ['0', '0']⟩ := by decide
  have hval : parseTimecode ⟨['0', '0'], ['0', '0'], ['0', '5'], ['0', '0']⟩ = 5 := by
    unfold parseTimecode decVal
    norm_num [show natFromDigits ['0', '0'] = 0 from rfl, show natFromDigits ['0', '5'] = 5 from rfl]
  have hdec : decVal ['2'] ['0'] = 2 := by
    unfold decVal
    norm_num [show natFromDigits ['2'] = 2 from rfl, show natFromDigits ['0'] = 0 from rfl]
  refine ⟨?_, ?_, ?_⟩
  · have h2 := (hTime ⟨['0', '0'], ['0', '0'], ['0', '5'], ['0', '0']⟩ 10 hg rfl (by norm_num)).1
    rw [h2, hval, min_eq_left (by norm_num : (5 : ℚ) / 10 ≤ 1)]
    norm_num
  · have h3 := hEta ⟨['0', '0'], ['0', '0'], ['0', '5'], ['0', '0']⟩ 10 ['2', '.', '0'] ['2'] ['0']
      hg rfl (by norm_num) (by decide) (by decide) (by rw [hdec]; norm_num)
    rw [h3, hval, hdec, max_eq_left (by norm_num : (0 : ℚ) ≤ (10 - 5) / 2)]
    norm_num
  · exact (progress_line_parsing "frame=42 size=1024kB" (some 10) 0).1 (by decide)

theorem cropClause_head (c : Option CropParams) (s : String) (h : cropClause c = some s) :
    s.data.head? = some 'c' := by
  unfold cropClause at h
  cases c with
  | none => exact Option.noConfusion h
  | some cp =>
    dsimp only at h
    cases hw : cp.w with
    | none => rw [hw] at h; exact Option.noConfusion h
    | some w =>
      rw [hw] at h
      cases hh : cp.h with
      | none => rw [hh] at h; exact Option.noConfusion h
      | some ht =>
        rw [hh] at h
        dsimp only at h
        split at h
        · obtain rfl : s = _ := (Option.some.inj h).symm
          rfl
        · exact Option.noConfusion h

theorem rotateClause_head (r : Option Int) (s : String) (h : rotateClause r = some s) :
    s.data.head? = some 't' ∨ s.data.head? = some 'r' := by
  unfold rotateClause at h
  cases r with
  | none => exact Option.noConfusion h
  | some a =>
    dsimp only at h
    split at h
    · obtain rfl : s = "transpose=1" := (Option.some.inj h).symm
      left; rfl
    · split at h
      · obtain rfl : s = "transpose=2,transpose=2" := (Option.some.inj h).symm
        left; rfl
      · split at h
        · obtain rfl : s = "transpose=2" := (Option.some.inj h).symm
          left; rfl
        · split at h
          · obtain rfl : s = _ := (Option.some.inj h).symm
            right; rfl
          · exact Option.noConfusion h

theorem eqClause_head (c : Option ColorParams) (s : String) (h : eqClause c = some s) :
    s.data.head? = some 'e' := by
  unfold eqClause at h
  cases c with
  | none => exact Option.noConfusion h
  | some cp =>
    dsimp only at h
    split at h
    · obtain rfl : s = _ := (Option.some.inj h).symm
      rfl
    · exact Option.noConfusion h

theorem loudnormClause_head (l : Option LoudnormParams) (s : String)
    (h : loudnormClause l = some s) : s.data.head? = some 'l' := by
  unfold loudnormClause at h
  cases l with
  | none => exact Option.noConfusion h
  | some lp =>
    obtain rfl : s = _ := (Option.some.inj h).symm
    rfl

theorem denoiseClause_head (d : Option DenoiseParams) (s : String)
    (h : denoiseClause d = some s) : s.data.head? = some 'a' := by
  unfold denoiseClause at h
  cases d with
  | none => exact Option.noConfusion h
  | some dp =>
    obtain rfl : s = _ := (Option.some.inj h).symm
    rfl

theorem vfClauses_head (v : VideoParams) (s : String) (hs : s ∈ vfClauses v) :
    s.data.head? = some 'c' ∨ s.data.head? = some 't' ∨
    s.data.head? = some 'r' ∨ s.data.head? = some 'e' := by
  unfold vfClauses at hs
  rcases List.mem_append.mp hs with h1 | h2
  · rcases List.mem_append.mp h1 with h3 | h4
    · exact Or.inl (cropClause_head _ _ (Option.mem_def.mp (Option.mem_toList.mp h3)))
    · rcases rotateClause_head _ _ (Option.mem_def.mp (Option.mem_toList.mp h4)) with h | h
      · exact Or.inr (Or.inl h)
      · exact Or.inr (Or.inr (Or.inl h))
  · exact Or.inr (Or.inr (Or.inr (eqClause_head _ _ (Option.mem_def.mp (Option.mem_toList.mp h2)))))

theorem afClauses_head (a : AudioParams) (s : String) (hs : s ∈ afClauses a) :
    s.data.head? = some 'l' ∨ s.data.head? = some 'a' := by
  unfold afClauses at hs
  rcases List.mem_append.mp hs with h1 | h2
  · exact Or.inl (loudnormClause_head _ _ (Option.mem_def.mp (Option.mem_toList.mp h1)))
  · exact Or.inr (denoiseClause_head _ _ (Option.mem_def.mp (Option.mem_toList.mp h2)))

theorem joinSep_head_of_head (sep : String) (s : String) (rest : List String) (c : Char)
    (h : s.data.head? = some c) : (joinSep sep (s :: rest)).data.head? = some c := by
  cases rest with
  | nil => exact h
  | cons r t =>
    show ((s ++ sep ++ joinSep sep (r :: t))).data.head? = some c
    cases hs : s.data with
    | nil => rw [hs] at h; exact Option.noConfusion h
    | cons c0 cs =>
      rw [hs] at h
      rw [string_data_append, string_data_append, hs]
      exact h

theorem joinSep_ne_dash_tok (l : List String) (tok : String)
    (htok : tok.data.head? = some '-')
    (hl : ∀ s ∈ l, s.data.head? = some '-' → False) : joinSep "," l ≠ tok := by
  cases l with
  | nil =>
    intro he
    have hd := congrArg String.data he
    rw [← hd] at htok
    exact Option.noConfusion htok
  | cons s rest =>
    intro he
    cases hs : s.data with
    | nil =>
      have hh := congrArg (fun x : String => x.data.head?) he
      dsimp only at hh
      rw [htok] at hh
      cases rest with
      | nil =>
        have : s = tok := he
        rw [← this, hs] at htok
        exact Option.noConfusion htok
      | cons r t =>
        have hh2 := congrArg (fun x : String => x.data.head?) he
        dsimp only at hh2
        rw [show joinSep "," (s :: r :: t) = s ++ "," ++ joinSep "," (r :: t) from rfl,
          string_data_append, string_data_append, hs] at hh2
        rw [htok] at hh2
        exact absurd (Option.some.inj hh2) (by decide)
    | cons c0 cs =>
      have hh := congrArg (fun x : String => x.data.head?) he
      dsimp only at hh
      rw [joinSep_head_of_head "," s rest c0 (by rw [hs]; rfl), htok] at hh
      obtain rfl : c0 = '-' := Option.some.inj hh
      exact hl s (List.mem_cons_self s rest) (by rw [hs]; rfl)

theorem buildVideoFilters_ne_dash_tok (v : VideoParams) (tok : String)
    (htok : tok.data.head? = some '-') : buildVideoFilters v ≠ tok := by
  unfold buildVideoFilters
  apply joinSep_ne_dash_tok _ _ htok
  intro s hs hhead
  rcases vfClauses_head v s hs with h | h | h | h <;>
    (rw [h] at hhead; exact absurd (Option.some.inj hhead) (by decide))

theorem buildAudioFilters_ne_dash_tok (a : AudioParams) (tok : String)
    (htok : tok.data.head? = some '-') : buildAudioFilters a ≠ tok := by
  unfold buildAudioFilters
  apply joinSep_ne_dash_tok _ _ htok
  intro s hs hhead
  rcases afClauses_head a s hs with h | h <;>
    (rw [h] at hhead; exact absurd (Option.some.inj hhead) (by decide))

theorem not_mem_single (tok a : String) (h : a ≠ tok) : tok ∉ [a] := by
  intro hm
  rw [List.mem_singleton] at hm
  exact h hm.symm

theorem not_mem_pair (tok a b : String) (h1 : a ≠ tok) (h2 : b ≠ tok) : tok ∉ [a, b] := by
  intro hm
  rcases List.mem_cons.mp hm with h | h
  · exact h1 h.symm
  · rw [List.mem_singleton] at h
    exact h2 h.symm

theorem optStrFlag_not_mem (flag : String) (v : Option String) (tok : String)
    (h1 : flag ≠ tok) (h2 : v ≠ some tok) : tok ∉ optStrFlag flag v := by
  unfold optStrFlag
  cases v with
  | none => exact List.not_mem_nil _
  | some s =>
    dsimp only
    split
    · exact List.not_mem_nil _
    · exact not_mem_pair _ _ _ h1 fun he => h2 (by rw [he])

theorem applyVideoParams_crf_no_bv (v : VideoParams) (c : Int) (hc : v.crf = some c)
    (hcodec : v.codec ≠ some "-b:v") (hres : v.resolution ≠ some "-b:v")
    (hpre : v.preset ≠ some "-b:v") (htune : v.tune ≠ some "-b:v") (af : Bool) :
    "-b:v" ∉ applyVideoParams v af := by
  unfold applyVideoParams
  rw [hc]
  refine not_mem_append2 (not_mem_append2 (not_mem_append2 (not_mem_append2
    (not_mem_append2 (not_mem_append2 ?_ ?_) ?_) ?_) ?_) ?_) ?_
  · exact optStrFlag_not_mem _ _ _ (by decide) hcodec
  · exact not_mem_pair _ _ _ (by decide) (intStr_ne_bv c)
  · cases v.fps with
    | none => exact List.not_mem_nil _
    | some f => exact not_mem_pair _ _ _ (by decide) (numStr_ne_bv f)
  · exact optStrFlag_not_mem _ _ _ (by decide) hres
  · exact optStrFlag_not_mem _ _ _ (by decide) hpre
  · exact optStrFlag_not_mem _ _ _ (by decide) htune
  · cases af with
    | false => exact List.not_mem_nil _
    | true =>
      rw [if_pos rfl]
      split
      · exact List.not_mem_nil _
      · exact not_mem_pair _ _ _ (by decide) (buildVideoFilters_ne_dash_tok v "-b:v" rfl)

theorem applyVideoParams_bitrate_mem (v : VideoParams) (b : String) (hcrf : v.crf = none)
    (hb : v.bitrate = some b) (hbne : b ≠ "") (af : Bool) :
    "-b:v" ∈ applyVideoParams v af := by
  unfold applyVideoParams
  rw [hcrf, hb]
  dsimp only
  rw [if_neg hbne]
  simp [List.mem_append]

theorem applyVideoParams_no_crf (v : VideoParams) (hcrf : v.crf = none)
    (hcodec : v.codec ≠ some "-crf") (hbit : v.bitrate ≠ some "-crf")
    (hres : v.resolution ≠ some "-crf") (hpre : v.preset ≠ some "-crf")
    (htune : v.tune ≠ some "-crf") (af : Bool) :
    "-crf" ∉ applyVideoParams v af := by
  unfold applyVideoParams
  rw [hcrf]
  refine not_mem_append2 (not_mem_append2 (not_mem_append2 (not_mem_append2
    (not_mem_append2 (not_mem_append2 ?_ ?_) ?_) ?_) ?_) ?_) ?_
  · exact optStrFlag_not_mem _ _ _ (by decide) hcodec
  · cases hbv : v.bitrate with
    | none => exact List.not_mem_nil _
    | some b =>
      dsimp only
      split
      · exact List.not_mem_nil _
      · exact not_mem_pair _ _ _ (by decide) fun he => hbit (by rw [hbv, he])
  · cases v.fps with
    | none => exact List.not_mem_nil _
    | some f => exact not_mem_pair _ _ _ (by decide) (numStr_ne_crf f)
  · exact optStrFlag_not_mem _ _ _ (by decide) hres
  · exact optStrFlag_not_mem _ _ _ (by decide) hpre
  · exact optStrFlag_not_mem _ _ _ (by decide) htune
  · cases af with
    | false => exact List.not_mem_nil _
    | true =>
      rw [if_pos rfl]
      split
      · exact List.not_mem_nil _
      · exact not_mem_pair _ _ _ (by decide) (buildVideoFilters_ne_dash_tok v "-crf" rfl)

theorem applyAudioParams_no_tok (a : AudioParams) (tok : String)
    (htok : tok.data.head? = some '-')
    (hco : a.codec ≠ some tok) (hbr : a.bitrate ≠ some tok)
    (h1 : "-c:a" ≠ tok) (h2 : "-b:a" ≠ tok) (h3 : "-ar" ≠ tok) (h4 : "-ac" ≠ tok)
    (h5 : "-af" ≠ tok) (hnat : ∀ n : Nat, natStr n ≠ tok) :
    tok ∉ applyAudioParams a := by
  unfold applyAudioParams
  refine not_mem_append2 (not_mem_append2 (not_mem_append2 (not_mem_append2 ?_ ?_) ?_) ?_) ?_
  · exact optStrFlag_not_mem _ _ _ h1 hco
  · exact optStrFlag_not_mem _ _ _ h2 hbr
  · cases a.sample_rate with
    | none => exact List.not_mem_nil _
    | some n =>
      dsimp only
      split
      · exact List.not_mem_nil _
      · exact not_mem_pair _ _ _ h3 (hnat n)
  · cases a.channels with
    | none => exact List.not_mem_nil _
    | some n =>
      dsimp only
      split
      · exact List.not_mem_nil _
      · exact not_mem_pair _ _ _ h4 (hnat n)
  · split
    · exact List.not_mem_nil _
    · exact not_mem_pair _ _ _ h5 (buildAudioFilters_ne_dash_tok a tok htok)

/-- Claim C5 (amended): provided no caller-supplied free-form string
(paths, tool path, codec/bitrate/resolution/preset/tune, audio
codec/bitrate, extra args) is itself the literal flag token, an
`EncodeParams` with `crf` set yields an argv without `-b:v` even when
`bitrate` is also set (crf precedence), and an `EncodeParams` without
`crf` but with a non-empty `bitrate` yields an argv that contains `-b:v`
and no `-crf`.  The proviso is necessary: `extra_args` are copied into the
argv verbatim and can inject either token. -/
theorem crf_bitrate_precedence (fp i o : String) (p : Params) :
    (p.video.crf.isSome = true → tokenFree "-b:v" fp i o p →
      "-b:v" ∉ buildCommand fp i o p) ∧
    (∀ b : String, p.video.crf = none → p.video.bitrate = some b → b ≠ "" →
      "-b:v" ∈ buildCommand fp i o p ∧
      (tokenFree "-crf" fp i o p → "-crf" ∉ buildCommand fp i o p)) := by
  constructor
  · intro hcrf htf
    obtain ⟨hex, hfp, hi, ho, hcodec, hbit, hres, hpre, htune, haco, habr⟩ := htf
    obtain ⟨c, hc⟩ := Option.isSome_iff_exists.mp hcrf
    unfold buildCommand
    refine not_mem_append2 (not_mem_append2 (not_mem_append2 (not_mem_append2
      (not_mem_append2 (not_mem_append2 (not_mem_append2 (not_mem_append2 ?_ ?_) ?_) ?_) ?_)
        ?_) ?_) ?_) ?_
    · exact not_mem_pair _ _ _ hfp (by decide)
    · split
      · exact not_mem_single _ _ (by decide)
      · exact not_mem_single _ _ (by decide)
    · cases p.start with
      | none => exact List.not_mem_nil _
      | some s => exact not_mem_pair _ _ _ (by decide) (numStr_ne_bv s)
    · exact not_mem_pair _ _ _ (by decide) hi
    · cases p.stop with
      | none => exact List.not_mem_nil _
      | some e => exact not_mem_pair _ _ _ (by decide) (numStr_ne_bv e)
    · exact applyVideoParams_crf_no_bv p.video c hc hcodec hres hpre htune true
    · exact applyAudioParams_no_tok p.audio "-b:v" rfl haco habr (by decide) (by decide)
        (by decide) (by decide) (by decide) natStr_ne_bv
    · exact hex
    · exact not_mem_single _ _ ho
  · intro b hcrf hb hbne
    constructor
    · have hv := applyVideoParams_bitrate_mem p.video b hcrf hb hbne true
      unfold buildCommand
      simp only [List.mem_append]
      tauto
    · intro htf
      obtain ⟨hex, hfp, hi, ho, hcodec, hbit, hres, hpre, htune, haco, habr⟩ := htf
      unfold buildCommand
      refine not_mem_append2 (not_mem_append2 (not_mem_append2 (not_mem_append2
        (not_mem_append2 (not_mem_append2 (not_mem_append2 (not_mem_append2 ?_ ?_) ?_) ?_) ?_)
          ?_) ?_) ?_) ?_
      · exact not_mem_pair _ _ _ hfp (by decide)
      · split
        · exact not_mem_single _ _ (by decide)
        · exact not_mem_single _ _ (by decide)
      · cases p.start with
        | none => exact List.not_mem_nil _
        | some s => exact not_mem_pair _ _ _ (by decide) (numStr_ne_crf s)
      · exact not_mem_pair _ _ _ (by decide) hi
      · cases p.stop with
        | none => exact List.not_mem_nil _
        | some e => exact not_mem_pair _ _ _ (by decide) (numStr_ne_crf e)
      · exact applyVideoParams_no_crf p.video hcrf hcodec hbit hres hpre htune true
      · exact applyAudioParams_no_tok p.audio "-crf" rfl haco habr (by decide) (by decide)
          (by decide) (by decide) (by decide) natStr_ne_crf
      · exact hex
      · exact not_mem_single _ _ ho

theorem crf_bitrate_precedence_witness :
    "-b:v" ∉ buildCommand "ffmpeg" "in.mp4" "out.mp4"
      { video := { crf := some 23, bitrate := some "1M" } } ∧
    "-b:v" ∈ buildCommand "ffmpeg" "in.mp4" "out.mp4"
      { video := { bitrate := some "1M" } } ∧
    "-crf" ∉ buildCommand "ffmpeg" "in.mp4" "out.mp4"
      { video := { bitrate := some "1M" } } := by
  refine ⟨?_, ?_, ?_⟩
  · exact (crf_bitrate_precedence "ffmpeg" "in.mp4" "out.mp4"
      { video := { crf := some 23, bitrate := some "1M" } }).1 (by decide) (by decide)
  · exact ((crf_bitrate_precedence "ffmpeg" "in.mp4" "out.mp4"
      { video := { bitrate := some "1M" } }).2 "1M" rfl rfl (by decide)).1
  · exact ((crf_bitrate_precedence "ffmpeg" "in.mp4" "out.mp4"
      { video := { bitrate := some "1M" } }).2 "1M" rfl rfl (by decide)).2 (by decide)

/-- Claim C5 is false as stated: with crf set, an `EncodeParams` whose
`extra_args` contain the literal `-b:v` produces an argv containing a
bitrate flag — extra arguments are appended verbatim after the flag
groups. -/
theorem crf_bitrate_counterexample :
    ({ video := { crf := some 23, bitrate := some "1M" },
       extra_args := ["-b:v", "1M"] } : Params).video.crf.isSome = true ∧
    "-b:v" ∈ buildCommand "ffmpeg" "in.mp4" "out.mp4"
      { video := { crf := some 23, bitrate := some "1M" }, extra_args := ["-b:v", "1M"] } := by
  constructor
  · decide
  · decide
